import Mathlib

/-!
Shallow embedding of the calculation engine of the ai-finance backend
(src/backend/app/services) together with proofs about the claims of its
specification.  Python floats are modelled by real numbers; Optional
fields by Option; Python dicts keyed by asset class by association lists
in insertion order; computations that can raise ValueError by Option
results (none = the raising path).
-/

noncomputable section

open scoped BigOperators

/-- Standard normal cumulative distribution function (scipy.stats.norm.cdf),
written through the integral of the density over [0, x]:
Phi x = 1/2 + (int_0^x exp (-t^2/2) dt) / sqrt (2*pi). -/
def normCdf (x : ℝ) : ℝ :=
  1/2 + (∫ t in (0:ℝ)..x, Real.exp (-(t^2/2))) / Real.sqrt (2*Real.pi)

/-- Standard normal probability density function (scipy.stats.norm.pdf). -/
def normPdf (x : ℝ) : ℝ :=
  Real.exp (-(x^2/2)) / Real.sqrt (2*Real.pi)

/-- Keys of a Python dict in insertion order: first occurrence of each
element of the list, used to model grouping `trades_by_asset_class`. -/
def firstOccur {α : Type} [DecidableEq α] (l : List α) : List α :=
  l.foldl (fun acc x => if x ∈ acc then acc else acc ++ [x]) []

/-- Sum of the values of an association list (Python `sum(d.values())`). -/
def totalOf {κ : Type} (l : List (κ × ℝ)) : ℝ := (l.map Prod.snd).sum

/-- Accumulation of (key, value) pairs into a Python dict with
`d[k] = d.get-or-0 + v` semantics, keeping insertion order of keys. -/
def accumulate {κ : Type} [DecidableEq κ] (l : List (κ × ℝ)) : List (κ × ℝ) :=
  l.foldl
    (fun acc p =>
      if (List.lookup p.1 acc).isSome then
        acc.map (fun q => if q.1 = p.1 then (q.1, q.2 + p.2) else q)
      else acc ++ [p])
    []

/-- SA-CCR multiplier, as computed inline in
saccr.py lines 267-274 and pfe.py lines 210-217:
1.0 when the total add-on is 0, otherwise
floor + (1 - floor) * exp (-(min 1 (RC / (2 * total_add_on)))) with floor 0.05. -/
def multiplierOf (replacement_cost total_add_on : ℝ) : ℝ :=
  if total_add_on = 0 then 1.0
  else 0.05 + (1 - 0.05) * Real.exp (-(min 1.0 (replacement_cost / (2.0 * total_add_on))))

/-- Asset classes shared by the SACCR, PFE and Initial Margin schemas. -/
inductive AssetClass : Type
  | interest_rate
  | credit
  | equity
  | commodity
  | fx
deriving DecidableEq, Repr

/-- Transaction / trade / product types (identical enumerations in the
saccr, pfe and initial_margin schemas). -/
inductive TransactionType : Type
  | swap
  | forward
  | option
  | swaption
  | futures
  | other
deriving DecidableEq, Repr

/-- Option types (saccr schema). -/
inductive OptionType : Type
  | call
  | put
deriving DecidableEq, Repr

namespace SACCR

/-- app/schemas/saccr.py Transaction.  The unused option_style field is
omitted (it is validated but never read by the service).  Optional floats
are Option ℝ. -/
structure Transaction : Type where
  id : String
  asset_class : AssetClass
  transaction_type : TransactionType
  notional : ℝ
  maturity : ℝ
  underlying_price : Option ℝ
  strike_price : Option ℝ
  option_type : Option OptionType
  volatility : Option ℝ
  interest_rate : Option ℝ
  supervisory_delta : Option ℝ
  supervisory_factor : Option ℝ
  maturity_factor : Option ℝ

/-- app/schemas/saccr.py NettingSet (flat collateral amount). -/
structure NettingSet : Type where
  id : String
  transactions : List Transaction
  collateral : ℝ

/-- SACCRService.SUPERVISORY_FACTORS. -/
def SUPERVISORY_FACTORS : AssetClass → ℝ
  | .interest_rate => 0.005
  | .credit => 0.05
  | .equity => 0.32
  | .commodity => 0.18
  | .fx => 0.04

/-- SACCRService.calculate_black_scholes (saccr.py lines 49-84): returns
(price, delta, gamma). -/
def calculate_black_scholes (option_type : OptionType)
    (underlying_price strike_price time_to_maturity volatility int_rate : ℝ) :
    ℝ × ℝ × ℝ :=
  let d1 := (Real.log (underlying_price / strike_price)
      + (int_rate + 0.5 * volatility^2) * time_to_maturity)
      / (volatility * Real.sqrt time_to_maturity)
  let d2 := d1 - volatility * Real.sqrt time_to_maturity
  let gamma := normPdf d1 / (underlying_price * volatility * Real.sqrt time_to_maturity)
  match option_type with
  | .call =>
      (underlying_price * normCdf d1
        - strike_price * Real.exp (-(int_rate * time_to_maturity)) * normCdf d2,
       normCdf d1, gamma)
  | .put =>
      (strike_price * Real.exp (-(int_rate * time_to_maturity)) * normCdf (-d2)
        - underlying_price * normCdf (-d1),
       normCdf d1 - 1, gamma)

/-- SACCRService.calculate_supervisory_delta (saccr.py lines 86-129).
none models the ValueError raised when an option transaction misses a
required pricing field. -/
def calculate_supervisory_delta (t : Transaction) : Option ℝ :=
  match t.supervisory_delta with
  | some d => some d
  | none =>
    if t.transaction_type ≠ .option ∧ t.transaction_type ≠ .swaption then some 1.0
    else
      match t.underlying_price, t.strike_price, t.option_type, t.volatility, t.interest_rate with
      | some s, some k, some ot, some vol, some r =>
          let delta := (calculate_black_scholes ot s k t.maturity vol r).2.1
          some (if ot = .put then -delta else delta)
      | _, _, _, _, _ => none

/-- SACCRService.calculate_maturity_factor (saccr.py lines 131-148). -/
def calculate_maturity_factor (t : Transaction) : ℝ :=
  match t.maturity_factor with
  | some mf => mf
  | none => Real.sqrt (min t.maturity 1.0 / 1.0)

/-- SACCRService.calculate_adjusted_notional (saccr.py lines 150-161). -/
def calculate_adjusted_notional (t : Transaction) : ℝ := t.notional

/-- SACCRService.calculate_replacement_cost (saccr.py lines 163-203):
max(V - C, 0) where option values come from Black-Scholes when all pricing
fields are present, otherwise flat proxies 0.1x / 0.05x notional. -/
def calculate_replacement_cost (ns : NettingSet) : ℝ :=
  let total_value := (ns.transactions.map fun t =>
    if t.transaction_type = .option ∨ t.transaction_type = .swaption then
      match t.underlying_price, t.strike_price, t.option_type, t.volatility, t.interest_rate with
      | some s, some k, some ot, some vol, some r =>
          (calculate_black_scholes ot s k t.maturity vol r).1 * t.notional
      | _, _, _, _, _ => 0.1 * t.notional
    else 0.05 * t.notional).sum
  max (total_value - ns.collateral) 0

/-- SACCRService.calculate_add_on (saccr.py lines 205-248): add-on per
asset class, keys in first-appearance order; none when some supervisory
delta computation raises. -/
def calculate_add_on (ns : NettingSet) : Option (List (AssetClass × ℝ)) :=
  (firstOccur (ns.transactions.map (·.asset_class))).mapM fun c =>
    ((ns.transactions.filter fun t => decide (t.asset_class = c)).mapM fun t =>
        (calculate_supervisory_delta t).map fun sd =>
          sd * calculate_adjusted_notional t * calculate_maturity_factor t).map
      fun effs => (c, SUPERVISORY_FACTORS c * effs.sum)

/-- SACCRService.calculate_potential_future_exposure (saccr.py lines
250-279): PFE = multiplier * total add-on. -/
def calculate_potential_future_exposure (ns : NettingSet) : Option ℝ :=
  (calculate_add_on ns).map fun add_ons =>
    multiplierOf (calculate_replacement_cost ns) (totalOf add_ons) * totalOf add_ons

/-- The supervisory-delta resolution rule in the words of the spec
(section 4.2): explicit override if present; else 1.0 for non-option
products; else the Pricer-derived delta, sign-flipped for puts.  Written
from the spec sentence, to be compared with calculate_supervisory_delta. -/
def supervisory_delta_spec (t : Transaction) : Option ℝ :=
  match t.supervisory_delta with
  | some d => some d
  | none =>
    if t.transaction_type = .option ∨ t.transaction_type = .swaption then
      match t.underlying_price, t.strike_price, t.option_type, t.volatility, t.interest_rate with
      | some s, some k, some ot, some vol, some r =>
          some (if ot = .put then -((calculate_black_scholes ot s k t.maturity vol r).2.1)
                else (calculate_black_scholes ot s k t.maturity vol r).2.1)
      | _, _, _, _, _ => none
    else some 1.0

end SACCR

namespace PFE

/-- app/schemas/pfe.py TimeHorizon. -/
inductive TimeHorizon : Type
  | one_week
  | one_month
  | three_month
  | six_month
  | one_year
  | two_year
  | five_year
deriving DecidableEq, Repr

/-- app/schemas/pfe.py ConfidenceLevel. -/
inductive ConfidenceLevel : Type
  | cl_95
  | cl_97_5
  | cl_99
deriving DecidableEq, Repr

/-- app/schemas/pfe.py Trade (no option pricing fields exist here). -/
structure Trade : Type where
  id : String
  asset_class : AssetClass
  transaction_type : TransactionType
  notional : ℝ
  maturity : ℝ
  market_value : ℝ
  supervisory_delta : Option ℝ
  supervisory_factor : Option ℝ
  maturity_factor : Option ℝ

/-- app/schemas/pfe.py Collateral. -/
structure Collateral : Type where
  id : String
  amount : ℝ
  currency : String
  haircut : ℝ

/-- app/schemas/pfe.py NettingSet (list of collateral entries). -/
structure NettingSet : Type where
  id : String
  trades : List Trade
  collateral : List Collateral

/-- PFEService.SUPERVISORY_FACTORS (same table as SACCR). -/
def SUPERVISORY_FACTORS : AssetClass → ℝ
  | .interest_rate => 0.005
  | .credit => 0.05
  | .equity => 0.32
  | .commodity => 0.18
  | .fx => 0.04

/-- PFEService.TIME_HORIZON_YEARS. -/
def TIME_HORIZON_YEARS : TimeHorizon → ℝ
  | .one_week => 1/52
  | .one_month => 1/12
  | .three_month => 3/12
  | .six_month => 6/12
  | .one_year => 1.0
  | .two_year => 2.0
  | .five_year => 5.0

/-- PFEService.CONFIDENCE_LEVELS (z-scores). -/
def CONFIDENCE_LEVELS : ConfidenceLevel → ℝ
  | .cl_95 => 1.645
  | .cl_97_5 => 1.96
  | .cl_99 => 2.326

/-- PFEService.calculate_supervisory_delta (pfe.py lines 70-91): override,
else 1.0 for non-options, else the fixed value 0.5 for options. -/
def calculate_supervisory_delta (t : Trade) : ℝ :=
  match t.supervisory_delta with
  | some d => d
  | none =>
    if t.transaction_type ≠ .option ∧ t.transaction_type ≠ .swaption then 1.0
    else 0.5

/-- PFEService.calculate_maturity_factor (pfe.py lines 93-110). -/
def calculate_maturity_factor (t : Trade) : ℝ :=
  match t.maturity_factor with
  | some mf => mf
  | none => Real.sqrt (min t.maturity 1.0 / 1.0)

/-- PFEService.calculate_collateral_value (pfe.py lines 112-123). -/
def calculate_collateral_value (collateral : List Collateral) : ℝ :=
  (collateral.map fun c => (1 - c.haircut) * c.amount).sum

/-- PFEService.calculate_replacement_cost (pfe.py lines 125-143). -/
def calculate_replacement_cost (ns : NettingSet) : ℝ :=
  max ((ns.trades.map (·.market_value)).sum - calculate_collateral_value ns.collateral) 0

/-- PFEService.calculate_add_on (pfe.py lines 145-185). -/
def calculate_add_on (ns : NettingSet) : List (AssetClass × ℝ) :=
  (firstOccur (ns.trades.map (·.asset_class))).map fun c =>
    (c, SUPERVISORY_FACTORS c *
      ((ns.trades.filter fun t => decide (t.asset_class = c)).map fun t =>
        calculate_supervisory_delta t * t.notional * calculate_maturity_factor t).sum)

/-- Total add-on of a netting set in the PFE engine. -/
def total_add_on (ns : NettingSet) : ℝ := totalOf (calculate_add_on ns)

/-- PFEService.calculate_potential_future_exposure_sa_ccr (pfe.py lines
187-230): multiplier * total add-on, then scaled by sqrt(horizon years)
and by z / 1.96. -/
def calculate_potential_future_exposure_sa_ccr
    (ns : NettingSet) (time_horizon : TimeHorizon) (confidence_level : ConfidenceLevel) : ℝ :=
  multiplierOf (calculate_replacement_cost ns) (total_add_on ns) * total_add_on ns
    * Real.sqrt (TIME_HORIZON_YEARS time_horizon)
    * (CONFIDENCE_LEVELS confidence_level / 1.96)

/-- PFEService.calculate_potential_future_exposure_internal_model (pfe.py
lines 232-270): the SA-CCR result times the fixed adjustment factor 0.8. -/
def calculate_potential_future_exposure_internal_model
    (ns : NettingSet) (time_horizon : TimeHorizon) (confidence_level : ConfidenceLevel) : ℝ :=
  calculate_potential_future_exposure_sa_ccr ns time_horizon confidence_level * 0.8

/-- PFEService.calculate_potential_future_exposure_historical (pfe.py
lines 272-310): the SA-CCR result times the fixed adjustment factor 1.1. -/
def calculate_potential_future_exposure_historical
    (ns : NettingSet) (time_horizon : TimeHorizon) (confidence_level : ConfidenceLevel) : ℝ :=
  calculate_potential_future_exposure_sa_ccr ns time_horizon confidence_level * 1.1

/-- The accumulated add-on dict across netting sets (calculate_pfe,
pfe.py lines 453-457): all_add_ons[c] += add_on. -/
def all_add_ons (netting_sets : List NettingSet) : List (AssetClass × ℝ) :=
  accumulate (netting_sets.map calculate_add_on).flatten

/-- Asset-class breakdown of calculate_pfe (pfe.py lines 475-486):
(class, exposure, percentage), percentage = add_on/total*100 when the
total is positive, otherwise 0. -/
def asset_class_breakdown (netting_sets : List NettingSet) : List (AssetClass × ℝ × ℝ) :=
  let all := all_add_ons netting_sets
  let total := totalOf all
  all.map fun p => (p.1, p.2, if total > 0 then p.2 / total * 100 else 0.0)

end PFE

namespace IM

/-- app/schemas/initial_margin.py CalculationMethod. -/
inductive CalculationMethod : Type
  | grid
  | simm
deriving DecidableEq, Repr

/-- app/schemas/initial_margin.py Trade; the product enumeration coincides
with TransactionType. -/
structure Trade : Type where
  id : String
  asset_class : AssetClass
  product : TransactionType
  notional : ℝ
  maturity : ℝ
  market_value : ℝ
  delta : Option ℝ
  vega : Option ℝ
  curvature : Option ℝ

/-- app/schemas/initial_margin.py NettingSet. -/
structure NettingSet : Type where
  id : String
  trades : List Trade

/-- Maturity buckets of the grid approach ("0-2", "2-5", "5+"). -/
inductive MaturityBucket : Type
  | b0to2
  | b2to5
  | b5plus
deriving DecidableEq, Repr

/-- InitialMarginService.get_maturity_bucket (initial_margin.py 97-113). -/
def get_maturity_bucket (maturity : ℝ) : MaturityBucket :=
  if maturity < 2 then .b0to2
  else if maturity < 5 then .b2to5
  else .b5plus

/-- InitialMarginService.GRID_THRESHOLDS. -/
def GRID_THRESHOLDS : AssetClass → MaturityBucket → ℝ
  | .interest_rate, .b0to2 => 0.01
  | .interest_rate, .b2to5 => 0.02
  | .interest_rate, .b5plus => 0.04
  | .credit, .b0to2 => 0.02
  | .credit, .b2to5 => 0.05
  | .credit, .b5plus => 0.10
  | .equity, .b0to2 => 0.06
  | .equity, .b2to5 => 0.08
  | .equity, .b5plus => 0.10
  | .commodity, .b0to2 => 0.10
  | .commodity, .b2to5 => 0.12
  | .commodity, .b5plus => 0.15
  | .fx, .b0to2 => 0.04
  | .fx, .b2to5 => 0.05
  | .fx, .b5plus => 0.06

/-- Sensitivity components of SIMM_RISK_WEIGHTS. -/
inductive SimmComponent : Type
  | delta
  | vega
  | curvature
deriving DecidableEq, Repr

/-- InitialMarginService.SIMM_RISK_WEIGHTS. -/
def SIMM_RISK_WEIGHTS : AssetClass → SimmComponent → ℝ
  | .interest_rate, .delta => 0.005
  | .interest_rate, .vega => 0.01
  | .interest_rate, .curvature => 0.01
  | .credit, .delta => 0.05
  | .credit, .vega => 0.10
  | .credit, .curvature => 0.10
  | .equity, .delta => 0.15
  | .equity, .vega => 0.20
  | .equity, .curvature => 0.20
  | .commodity, .delta => 0.18
  | .commodity, .vega => 0.30
  | .commodity, .curvature => 0.30
  | .fx, .delta => 0.04
  | .fx, .vega => 0.05
  | .fx, .curvature => 0.05

/-- Gross notional of a list of trades (initial_margin.py lines 137-146):
sum of absolute notionals; the per-trade maturity bucket computed in the
same loop (lines 139-143) is never used afterwards. -/
def gross_notional (trades : List Trade) : ℝ :=
  (trades.map fun t => |t.notional|).sum

/-- Per-asset-class margins of calculate_grid_margin (initial_margin.py
lines 115-157): margin = gross notional times the fixed "2-5" threshold. -/
def grid_margins (ns : NettingSet) : List (AssetClass × ℝ) :=
  (firstOccur (ns.trades.map (·.asset_class))).map fun c =>
    (c, gross_notional (ns.trades.filter fun t => decide (t.asset_class = c))
        * GRID_THRESHOLDS c .b2to5)

/-- Total margin of calculate_grid_margin. -/
def grid_total_margin (ns : NettingSet) : ℝ := totalOf (grid_margins ns)

/-- Delta sum of a class's trades in calculate_simm_margin (lines 190-193):
(delta or 1.0) * notional. -/
def simm_delta_sum (trades : List Trade) : ℝ :=
  (trades.map fun t => (t.delta.getD 1.0) * t.notional).sum

/-- Vega sum (lines 195-198): only option/swaption products contribute
(vega or 0.1) * notional. -/
def simm_vega_sum (trades : List Trade) : ℝ :=
  (trades.map fun t =>
    if t.product = .option ∨ t.product = .swaption then (t.vega.getD 0.1) * t.notional
    else 0).sum

/-- Curvature sum (lines 200-203): only option/swaption products contribute
(curvature or 0.01) * notional. -/
def simm_curvature_sum (trades : List Trade) : ℝ :=
  (trades.map fun t =>
    if t.product = .option ∨ t.product = .swaption then (t.curvature.getD 0.01) * t.notional
    else 0).sum

/-- Per-asset-class margin of calculate_simm_margin (lines 205-212):
|component sum| * risk weight, summed over the three components. -/
def simm_class_margin (c : AssetClass) (trades : List Trade) : ℝ :=
  |simm_delta_sum trades| * SIMM_RISK_WEIGHTS c .delta
    + |simm_vega_sum trades| * SIMM_RISK_WEIGHTS c .vega
    + |simm_curvature_sum trades| * SIMM_RISK_WEIGHTS c .curvature

/-- Per-asset-class margins of calculate_simm_margin (lines 160-229). -/
def simm_margins (ns : NettingSet) : List (AssetClass × ℝ) :=
  (firstOccur (ns.trades.map (·.asset_class))).map fun c =>
    (c, simm_class_margin c (ns.trades.filter fun t => decide (t.asset_class = c)))

/-- Total margin of calculate_simm_margin. -/
def simm_total_margin (ns : NettingSet) : ℝ := totalOf (simm_margins ns)

/-- Margins dict of the selected method inside calculate_initial_margin. -/
def method_margins (method : CalculationMethod) (ns : NettingSet) : List (AssetClass × ℝ) :=
  match method with
  | .grid => grid_margins ns
  | .simm => simm_margins ns

/-- total_margin accumulated across netting sets in calculate_initial_margin
(line 271): sum of the per-netting-set totals. -/
def total_margin (method : CalculationMethod) (netting_sets : List NettingSet) : ℝ :=
  (netting_sets.map fun ns => totalOf (method_margins method ns)).sum

/-- all_margins accumulated across netting sets (lines 274-277). -/
def all_margins (method : CalculationMethod) (netting_sets : List NettingSet) :
    List (AssetClass × ℝ) :=
  accumulate (netting_sets.map (method_margins method)).flatten

/-- Asset-class breakdown of calculate_initial_margin (lines 285-295):
(class, margin, percentage), percentage = margin/total*100 when the total
is positive, otherwise 0. -/
def asset_class_breakdown (method : CalculationMethod) (netting_sets : List NettingSet) :
    List (AssetClass × ℝ × ℝ) :=
  let total := total_margin method netting_sets
  (all_margins method netting_sets).map fun p =>
    (p.1, p.2, if total > 0 then p.2 / total * 100 else 0.0)

end IM

namespace VaR

/-- app/schemas/var.py AssetClass (the VaR engine has crypto and no
credit). -/
inductive VAssetClass : Type
  | equity
  | fx
  | interest_rate
  | commodity
  | crypto
deriving DecidableEq, Repr

/-- app/schemas/var.py ConfidenceLevel. -/
inductive ConfidenceLevel : Type
  | cl_90
  | cl_95
  | cl_97_5
  | cl_99
deriving DecidableEq, Repr

/-- app/schemas/var.py TimeHorizon. -/
inductive TimeHorizon : Type
  | one_day
  | ten_day
  | one_month
  | three_month
deriving DecidableEq, Repr

/-- app/schemas/var.py Position.  The Optional correlation dict is an
association list; None is the empty list (both contain no key, and the
service only membership-tests and reads it). -/
structure Position : Type where
  id : String
  asset_class : VAssetClass
  ticker : String
  quantity : ℝ
  price : ℝ
  volatility : Option ℝ
  correlation : List (String × ℝ)

/-- VaRService.CONFIDENCE_LEVELS (z-scores, var.py lines 34-39). -/
def CONFIDENCE_LEVELS : ConfidenceLevel → ℝ
  | .cl_90 => 1.282
  | .cl_95 => 1.645
  | .cl_97_5 => 1.96
  | .cl_99 => 2.326

/-- VaRService.TIME_HORIZON_FACTORS (var.py lines 42-47). -/
def TIME_HORIZON_FACTORS : TimeHorizon → ℝ
  | .one_day => 1.0
  | .ten_day => Real.sqrt 10
  | .one_month => Real.sqrt 22
  | .three_month => Real.sqrt 66

/-- Confidence percentile float(level.strip percent)/100 used by the
historical and Monte Carlo methods. -/
def confidencePercentile : ConfidenceLevel → ℝ
  | .cl_90 => 0.90
  | .cl_95 => 0.95
  | .cl_97_5 => 0.975
  | .cl_99 => 0.99

/-- Position value quantity * price. -/
def positionValue (p : Position) : ℝ := p.quantity * p.price

/-- VaRService.calculate_portfolio_value (var.py lines 85-96). -/
def calculate_portfolio_value (positions : List Position) : ℝ :=
  (positions.map positionValue).sum

/-- Effective volatility: the position volatility, defaulting to 0.2. -/
def positionVolatility (p : Position) : ℝ := p.volatility.getD 0.2

/-- The initial correlation matrix: 0.5 everywhere, 1.0 on the diagonal
(np.ones * 0.5 with fill_diagonal, var.py lines 151-153 and 357-359). -/
def baseCorr (n : ℕ) : Fin n → Fin n → ℝ :=
  fun i j => if i = j then 1.0 else 0.5

/-- One symmetric assignment M[i,j] = c; M[j,i] = c. -/
def symmUpdate {n : ℕ} (M : Fin n → Fin n → ℝ) (i j : Fin n) (c : ℝ) :
    Fin n → Fin n → ℝ :=
  fun a b => if (a = i ∧ b = j) ∨ (a = j ∧ b = i) then c else M a b

/-- One iteration of the correlation update loop: if position j's id is a
key of position i's correlation dict, write the value symmetrically. -/
def corrStep (positions : List Position) (M : Fin positions.length → Fin positions.length → ℝ)
    (i j : Fin positions.length) : Fin positions.length → Fin positions.length → ℝ :=
  match List.lookup (positions.get j).id (positions.get i).correlation with
  | some c => symmUpdate M i j c
  | none => M

/-- The correlation matrix built by calculate_parametric_var (var.py lines
150-161) and calculate_monte_carlo_var (lines 356-367): the default matrix
overwritten, in loop order, by every supplied pairwise entry. -/
def correlation_matrix (positions : List Position) :
    Fin positions.length → Fin positions.length → ℝ :=
  (List.finRange positions.length).foldl
    (fun M i => (List.finRange positions.length).foldl (fun M j => corrStep positions M i j) M)
    (baseCorr positions.length)

/-- Variance-covariance matrix (var.py lines 163-167):
outer(sqrt(variance), sqrt(variance)) * correlation. -/
def variance_matrix (positions : List Position) :
    Fin positions.length → Fin positions.length → ℝ :=
  fun i j =>
    Real.sqrt ((positionVolatility (positions.get i))^2)
      * Real.sqrt ((positionVolatility (positions.get j))^2)
      * correlation_matrix positions i j

/-- Position weights (var.py lines 169-173). -/
def weights (positions : List Position) : Fin positions.length → ℝ :=
  fun i => positionValue (positions.get i) / calculate_portfolio_value positions

/-- Portfolio variance w^T Cov w (var.py line 176). -/
def portfolio_variance (positions : List Position) : ℝ :=
  ∑ i, ∑ j, weights positions i * variance_matrix positions i j * weights positions j

/-- Stand-alone VaR of one position (var.py line 137). -/
def position_var (p : Position) (cl : ConfidenceLevel) (th : TimeHorizon) : ℝ :=
  positionValue p * positionVolatility p * CONFIDENCE_LEVELS cl * TIME_HORIZON_FACTORS th
    / Real.sqrt 252

/-- Undiversified VaR: sum of the stand-alone position VaRs (line 148). -/
def undiversified_var (positions : List Position) (cl : ConfidenceLevel) (th : TimeHorizon) : ℝ :=
  (positions.map fun p => position_var p cl th).sum

/-- Diversified parametric VaR (var.py line 179). -/
def diversified_var (positions : List Position) (cl : ConfidenceLevel) (th : TimeHorizon) : ℝ :=
  calculate_portfolio_value positions * Real.sqrt (portfolio_variance positions)
    * CONFIDENCE_LEVELS cl * TIME_HORIZON_FACTORS th / Real.sqrt 252

/-- Diversification benefit (var.py line 182). -/
def diversification_benefit (positions : List Position) (cl : ConfidenceLevel)
    (th : TimeHorizon) : ℝ :=
  undiversified_var positions cl th - diversified_var positions cl th

/-- Marginal contribution to risk of position i (var.py lines 188-191). -/
def mcr (positions : List Position) (i : Fin positions.length) : ℝ :=
  (∑ j, weights positions j * variance_matrix positions i j)
    / Real.sqrt (portfolio_variance positions)

/-- Component VaR of position i (var.py line 194). -/
def component_var (positions : List Position) (cl : ConfidenceLevel) (th : TimeHorizon)
    (i : Fin positions.length) : ℝ :=
  weights positions i * mcr positions i * diversified_var positions cl th

/-- Sum of the per-position VaR contributions returned by the parametric
method. -/
def parametric_contribution_sum (positions : List Position) (cl : ConfidenceLevel)
    (th : TimeHorizon) : ℝ :=
  ∑ i, component_var positions cl th i

/-- The percentage step of calculate_var (var.py lines 615-619).  Python
float division by a zero denominator raises / yields a non-finite value;
that outcome is modelled by none.  No branch in the code guards either
division. -/
def result_percentages (portfolio_value var diversification_benefit : ℝ) :
    Option (ℝ × ℝ) :=
  match (if portfolio_value = 0 then none else some (var / portfolio_value * 100) : Option ℝ) with
  | none => none
  | some var_percentage =>
    match (if var + diversification_benefit = 0 then none
           else some (diversification_benefit / (var + diversification_benefit) * 100) : Option ℝ) with
    | none => none
    | some benefit_percentage => some (var_percentage, benefit_percentage)

/-- The diversification-benefit percentage of calculate_var (var.py line
619) alone: benefit / (var + benefit) * 100, an unguarded float division
(none models the zero-denominator failure). -/
def diversification_benefit_percentage (var diversification_benefit : ℝ) : Option ℝ :=
  if var + diversification_benefit = 0 then none
  else some (diversification_benefit / (var + diversification_benefit) * 100)

/-- Lower-triangular Cholesky factor (np.linalg.cholesky), by the standard
recursion L[i][i] = sqrt(A[i][i] - sum of squares of the row so far) and
L[i][j] = (A[i][j] - dot of rows) / L[j][j] for j < i. -/
def cholAux (A : ℕ → ℕ → ℝ) : ℕ → ℕ → ℝ
  | i, j =>
    if h : i < j then 0
    else if h2 : i = j then
      Real.sqrt (A i i - ∑ k in (Finset.range i).attach,
        (cholAux A i k.1)^2)
    else
      (A i j - ∑ k in (Finset.range j).attach,
        cholAux A i k.1 * cholAux A j k.1) / cholAux A j j
termination_by i j => (i, j)
decreasing_by
  · exact Prod.Lex.right i (h2 ▸ Finset.mem_range.mp k.2)
  · exact Prod.Lex.right i (Finset.mem_range.mp k.2)
  · exact Prod.Lex.left _ _ (by omega)
  · exact Prod.Lex.left _ _ (by omega)

/-- Cholesky factor of the correlation matrix, as a Fin-indexed matrix. -/
def cholesky {n : ℕ} (A : Fin n → Fin n → ℝ) : Fin n → Fin n → ℝ :=
  fun i j => cholAux (fun a b => if ha : a < n then (if hb : b < n then A ⟨a, ha⟩ ⟨b, hb⟩ else 0) else 0) i.1 j.1

/-- Daily volatility vector (volatility or 0.2, divided by sqrt 252). -/
def dailyVolatility (positions : List Position) (j : Fin positions.length) : ℝ :=
  positionVolatility (positions.get j) / Real.sqrt 252

/-- One simulated scaled return vector of calculate_monte_carlo_var
(var.py lines 383-393): (cholesky @ z) * daily volatility, where the
standard-normal stream xi is the np.random stream reseeded with 42 at the
start of every call, consumed in row order z[sim i][coordinate k]. -/
def mcScaledReturn (xi : ℕ → ℝ) (positions : List Position) (i : ℕ)
    (j : Fin positions.length) : ℝ :=
  (∑ k, cholesky (correlation_matrix positions) j k * xi (i * positions.length + k.1))
    * dailyVolatility positions j

/-- Simulated portfolio return of simulation i (var.py lines 395-401). -/
def mcPortfolioReturn (xi : ℕ → ℝ) (positions : List Position) (i : ℕ) : ℝ :=
  ∑ j, positionValue (positions.get j) / calculate_portfolio_value positions
    * mcScaledReturn xi positions i j

/-- The list of num_simulations simulated portfolio returns. -/
def mcReturns (xi : ℕ → ℝ) (positions : List Position) (num_simulations : ℕ) : List ℝ :=
  (List.range num_simulations).map (mcPortfolioReturn xi positions)

/-- np.sort: ascending sort of the return series. -/
def sortedAscending (l : List ℝ) : List ℝ :=
  l.mergeSort (fun a b => decide (a ≤ b))

/-- var_index = int(num_simulations * (1 - confidence)) (var.py line 407);
the value is nonnegative, so int() truncation is the floor. -/
def varIndex (num_simulations : ℕ) (cl : ConfidenceLevel) : ℕ :=
  (Int.floor ((num_simulations : ℝ) * (1 - confidencePercentile cl))).toNat

/-- VaRService.calculate_monte_carlo_var, VaR output only (var.py lines
403-409): portfolio_value * (-sorted_returns[var_index]) * time_factor. -/
def calculate_monte_carlo_var (xi : ℕ → ℝ) (positions : List Position)
    (cl : ConfidenceLevel) (th : TimeHorizon) (num_simulations : ℕ) : ℝ :=
  calculate_portfolio_value positions
    * (-(sortedAscending (mcReturns xi positions num_simulations)).getD
        (varIndex num_simulations cl) 0)
    * TIME_HORIZON_FACTORS th

/-- One entry of VaRService.STRESS_SCENARIOS (var.py lines 50-83). -/
structure Scenario : Type where
  name : String
  description : String
  volatility_multiplier : ℝ
  correlation_increase : ℝ
  asset_class_impacts : VAssetClass → Option ℝ

/-- VaRService.STRESS_SCENARIOS (var.py lines 50-83). -/
def STRESS_SCENARIOS : List Scenario :=
  [ { name := "Market Crash"
      description := "Simulates a severe market crash similar to 2008 financial crisis"
      volatility_multiplier := 3.0
      correlation_increase := 0.2
      asset_class_impacts := fun _ => none },
    { name := "Interest Rate Spike"
      description := "Simulates a sudden increase in interest rates"
      volatility_multiplier := 2.0
      correlation_increase := 0.1
      asset_class_impacts := fun c =>
        match c with
        | .interest_rate => some 2.5
        | .equity => some 1.5
        | .fx => some 1.2
        | .commodity => some 1.0
        | .crypto => some 1.3 },
    { name := "Liquidity Crisis"
      description := "Simulates a market-wide liquidity crisis"
      volatility_multiplier := 2.5
      correlation_increase := 0.3
      asset_class_impacts := fun c =>
        match c with
        | .interest_rate => some 1.5
        | .equity => some 2.0
        | .fx => some 1.8
        | .commodity => some 1.5
        | .crypto => some 3.0 } ]

/-- The stressed copy of a position built inside calculate_stress_scenarios
(var.py lines 494-524): volatility (when present) times the scenario
multiplier times the per-asset-class impact (1.0 when absent); each
supplied correlation raised by the increment, capped at 1.0. -/
def stressedPosition (sc : Scenario) (p : Position) : Position :=
  { p with
    volatility := p.volatility.map fun v =>
      v * sc.volatility_multiplier * ((sc.asset_class_impacts p.asset_class).getD 1.0)
    correlation := p.correlation.map fun kc =>
      (kc.1, min 1.0 (kc.2 + sc.correlation_increase)) }

/-- One stress-scenario result (StressScenario schema). -/
structure StressResult : Type where
  name : String
  description : String
  var : ℝ
  var_increase : ℝ
  var_increase_percentage : ℝ

/-- VaRService.calculate_stress_scenarios (var.py lines 469-554): for each
scenario, Monte Carlo VaR of the stressed portfolio with 5000 simulations;
nothing is appended when the position list is empty. -/
def calculate_stress_scenarios (xi : ℕ → ℝ) (positions : List Position)
    (cl : ConfidenceLevel) (th : TimeHorizon) (base_var : ℝ) : List StressResult :=
  if 0 < positions.length then
    STRESS_SCENARIOS.map fun sc =>
      let stressed_var :=
        calculate_monte_carlo_var xi (positions.map (stressedPosition sc)) cl th 5000
      { name := sc.name
        description := sc.description
        var := stressed_var
        var_increase := stressed_var - base_var
        var_increase_percentage := (stressed_var - base_var) / base_var * 100 }
  else []

/-- The stressed portfolio in the words of the claim: every position's
volatility multiplied by the scenario volatility factor and its
per-asset-class factor where given; every supplied pairwise correlation
raised by the increment, capped at 1.0.  Written from the claim sentence,
to be compared with the code's stressedPosition. -/
def claimStressedPosition (sc : Scenario) (p : Position) : Position :=
  { p with
    volatility := p.volatility.map fun v =>
      v * (sc.volatility_multiplier * ((sc.asset_class_impacts p.asset_class).getD 1.0))
    correlation := p.correlation.map fun kc =>
      (kc.1, min (kc.2 + sc.correlation_increase) 1.0) }

end VaR

/-! Concrete inputs used by witnesses and counterexamples. -/

/-- An empty SACCR netting set. -/
def saccrEmptyNS : SACCR.NettingSet := { id := "NS-E", transactions := [], collateral := 0 }

/-- A single interest-rate swap, notional 1,000,000, maturity 3 years, no
overrides (the worked example of spec section 8). -/
def saccrSwap : SACCR.Transaction :=
  { id := "T1", asset_class := .interest_rate, transaction_type := .swap
    notional := 1000000, maturity := 3
    underlying_price := none, strike_price := none, option_type := none
    volatility := none, interest_rate := none
    supervisory_delta := none, supervisory_factor := none, maturity_factor := none }

/-- Netting set holding only saccrSwap, no collateral. -/
def saccrSwapNS : SACCR.NettingSet :=
  { id := "NS-1", transactions := [saccrSwap], collateral := 0 }

/-- An at-the-money call option transaction: S = K = 100, maturity 1,
volatility 0.2, rate 0.05, no supervisory-delta override. -/
def saccrCallOption : SACCR.Transaction :=
  { id := "T2", asset_class := .equity, transaction_type := .option
    notional := 1000, maturity := 1
    underlying_price := some 100, strike_price := some 100, option_type := some .call
    volatility := some 0.2, interest_rate := some 0.05
    supervisory_delta := none, supervisory_factor := none, maturity_factor := none }

/-- The PFE-schema rendering of a call option trade without a
supervisory-delta override (the PFE Trade carries no pricing fields). -/
def pfeCallOption : PFE.Trade :=
  { id := "T2", asset_class := .equity, transaction_type := .option
    notional := 1000, maturity := 1, market_value := 0
    supervisory_delta := none, supervisory_factor := none, maturity_factor := none }

/-- PFE-schema interest-rate swap, notional 1,000,000, maturity 3 years,
market value 0, no overrides. -/
def pfeSwap : PFE.Trade :=
  { id := "T1", asset_class := .interest_rate, transaction_type := .swap
    notional := 1000000, maturity := 3, market_value := 0
    supervisory_delta := none, supervisory_factor := none, maturity_factor := none }

/-- Netting set holding only pfeSwap, no collateral; its total add-on is
5,000 and its replacement cost is 0, so its multiplier is exactly 1. -/
def pfeSwapNS : PFE.NettingSet := { id := "NS-1", trades := [pfeSwap], collateral := [] }

/-- An empty PFE netting set. -/
def pfeEmptyNS : PFE.NettingSet := { id := "NS-E", trades := [], collateral := [] }

/-- A trade with a negative supervisory-delta override -1, giving the
netting set a strictly negative total add-on of -5. -/
def pfeNegTrade : PFE.Trade :=
  { id := "T3", asset_class := .interest_rate, transaction_type := .swap
    notional := 1000, maturity := 1, market_value := 0
    supervisory_delta := some (-1), supervisory_factor := none, maturity_factor := none }

/-- Netting set holding only pfeNegTrade. -/
def pfeNegNS : PFE.NettingSet := { id := "NS-N", trades := [pfeNegTrade], collateral := [] }

/-- One equity trade, notional 1,000,000, maturity 1 year (the Grid
initial-margin example of spec section 8). -/
def imEquityTrade : IM.Trade :=
  { id := "T1", asset_class := .equity, product := .swap
    notional := 1000000, maturity := 1, market_value := 0
    delta := none, vega := none, curvature := none }

/-- Netting set holding only imEquityTrade. -/
def imEquityNS : IM.NettingSet := { id := "NS-1", trades := [imEquityTrade] }

/-- One equity position, quantity 1, price 100, explicit volatility 0.2,
no correlation entries. -/
def varPos1 : VaR.Position :=
  { id := "P1", asset_class := .equity, ticker := "AAA"
    quantity := 1, price := 100, volatility := some 0.2, correlation := [] }

/-- A position whose correlation dict is keyed by its own id with value
0.3. -/
def varSelfCorrPos : VaR.Position :=
  { id := "A", asset_class := .equity, ticker := "AAA"
    quantity := 1, price := 100, volatility := some 0.2, correlation := [("A", 0.3)] }

/-- Two positions supplying one side of their mutual correlation, with no
self-keyed entries. -/
def varPosB : VaR.Position :=
  { id := "B", asset_class := .equity, ticker := "BBB"
    quantity := 2, price := 50, volatility := none, correlation := [("C", 0.8)] }

/-- Companion of varPosB with an empty correlation dict. -/
def varPosC : VaR.Position :=
  { id := "C", asset_class := .fx, ticker := "CCC"
    quantity := 1, price := 10, volatility := some 0.3, correlation := [] }

/-! Numeric facts about sqrt(2 pi), the Gaussian integral and exp, used to
evaluate the Black-Scholes pricer at the spec's worked example. -/

theorem two_pi_sqrt_lb : (2.50662 : ℝ) < Real.sqrt (2 * Real.pi) := by
  rw [Real.lt_sqrt (by norm_num)]
  nlinarith [Real.pi_gt_d6]

theorem two_pi_sqrt_ub : Real.sqrt (2 * Real.pi) < 2.50664 := by
  rw [Real.sqrt_lt' (by norm_num)]
  nlinarith [Real.pi_lt_d6]

/-- Degree-6 polynomial bounds on exp (-(t^2/2)) for t in [0, 1], from the
Taylor remainder bound on exp. -/
theorem expPoly_bounds {t : ℝ} (h0 : 0 ≤ t) (h1 : t ≤ 1) :
    1 - t^2/2 + t^4/8 + (-(1/36))*t^6 ≤ Real.exp (-(t^2/2)) ∧
    Real.exp (-(t^2/2)) ≤ 1 - t^2/2 + t^4/8 + (1/36)*t^6 := by
  have habs : |(-(t^2/2))| ≤ 1 := by
    rw [abs_neg, abs_of_nonneg (by positivity)]
    nlinarith
  have h := Real.exp_bound habs (by norm_num : 0 < 3)
  have hsum : ∑ m ∈ Finset.range 3, (-(t^2/2)) ^ m / m.factorial
      = 1 - t^2/2 + t^4/8 := by
    simp [Finset.sum_range_succ, Nat.factorial]
    ring
  rw [hsum, abs_neg, abs_of_nonneg (by positivity : (0:ℝ) ≤ t^2/2)] at h
  have h' := abs_le.mp h
  have hfac : ((3:ℕ).factorial : ℝ) = 6 := by norm_num [Nat.factorial]
  rw [hfac] at h'
  constructor <;> nlinarith [h'.1, h'.2]

/-- The integral over [0, a] of the bounding polynomials. -/
theorem integral_polySix (a c : ℝ) :
    (∫ t in (0:ℝ)..a, (1 - t^2/2 + t^4/8 + c*t^6)) =
      a - a^3/6 + a^5/40 + c*a^7/7 := by
  have h1 : IntervalIntegrable (fun _ : ℝ => (1:ℝ)) MeasureTheory.volume 0 a :=
    intervalIntegrable_const
  have h2 : IntervalIntegrable (fun t : ℝ => t^2/2) MeasureTheory.volume 0 a :=
    (Continuous.intervalIntegrable (by continuity) 0 a)
  have h3 : IntervalIntegrable (fun t : ℝ => t^4/8) MeasureTheory.volume 0 a :=
    (Continuous.intervalIntegrable (by continuity) 0 a)
  have h4 : IntervalIntegrable (fun t : ℝ => c*t^6) MeasureTheory.volume 0 a :=
    (Continuous.intervalIntegrable (by continuity) 0 a)
  rw [show (fun t : ℝ => 1 - t^2/2 + t^4/8 + c*t^6)
      = fun t : ℝ => (((1:ℝ) - t^2/2) + t^4/8) + c*t^6 from rfl]
  rw [intervalIntegral.integral_add ((h1.sub h2).add h3) h4,
    intervalIntegral.integral_add (h1.sub h2) h3,
    intervalIntegral.integral_sub h1 h2,
    intervalIntegral.integral_div, intervalIntegral.integral_div,
    intervalIntegral.integral_const_mul,
    integral_pow, integral_pow, integral_pow,
    intervalIntegral.integral_const]
  simp only [smul_eq_mul]
  push_cast
  ring

/-- Two-sided polynomial bounds on the Gaussian integral over [0, a]. -/
theorem gaussInt_bounds (a : ℝ) (h0 : 0 ≤ a) (h1 : a ≤ 1) :
    a - a^3/6 + a^5/40 - a^7/252 ≤ (∫ t in (0:ℝ)..a, Real.exp (-(t^2/2))) ∧
    (∫ t in (0:ℝ)..a, Real.exp (-(t^2/2))) ≤ a - a^3/6 + a^5/40 + a^7/252 := by
  have hfInt : IntervalIntegrable (fun t : ℝ => Real.exp (-(t^2/2)))
      MeasureTheory.volume 0 a :=
    (Continuous.intervalIntegrable (by continuity) 0 a)
  have hLInt : IntervalIntegrable (fun t : ℝ => 1 - t^2/2 + t^4/8 + (-(1/36))*t^6)
      MeasureTheory.volume 0 a :=
    (Continuous.intervalIntegrable (by continuity) 0 a)
  have hUInt : IntervalIntegrable (fun t : ℝ => 1 - t^2/2 + t^4/8 + (1/36)*t^6)
      MeasureTheory.volume 0 a :=
    (Continuous.intervalIntegrable (by continuity) 0 a)
  have hlo := intervalIntegral.integral_mono_on h0 hLInt hfInt
    (fun t ht => (expPoly_bounds ht.1 (le_trans ht.2 h1)).1)
  have hup := intervalIntegral.integral_mono_on h0 hfInt hUInt
    (fun t ht => (expPoly_bounds ht.1 (le_trans ht.2 h1)).2)
  rw [integral_polySix] at hlo hup
  constructor <;> nlinarith [hlo, hup]

/-- Interval bounds on normCdf (7/20), the Phi(d1) of the worked example. -/
theorem normCdf35_bounds : (0.63682 : ℝ) ≤ normCdf (7/20) ∧ normCdf (7/20) ≤ 0.63684 := by
  obtain ⟨hl, hu⟩ := gaussInt_bounds (7/20) (by norm_num) (by norm_num)
  have hS1 := two_pi_sqrt_lb
  have hS2 := two_pi_sqrt_ub
  have hIpos : (0:ℝ) ≤ ∫ t in (0:ℝ)..(7/20), Real.exp (-(t^2/2)) := by
    refine le_trans ?_ hl
    norm_num
  have hub : (∫ t in (0:ℝ)..(7/20), Real.exp (-(t^2/2))) / Real.sqrt (2*Real.pi)
      ≤ ((7/20) - (7/20)^3/6 + (7/20)^5/40 + (7/20)^7/252) / 2.50662 :=
    div_le_div₀ (by norm_num) hu (by norm_num) hS1.le
  have hlb : ((7/20) - (7/20)^3/6 + (7/20)^5/40 - (7/20)^7/252) / 2.50664
      ≤ (∫ t in (0:ℝ)..(7/20), Real.exp (-(t^2/2))) / Real.sqrt (2*Real.pi) :=
    div_le_div₀ hIpos hl (lt_trans (by norm_num) hS1) hS2.le
  have e1 : ((7/20:ℝ) - (7/20)^3/6 + (7/20)^5/40 - (7/20)^7/252) / 2.50664 ≥ 0.13682 := by
    norm_num
  have e2 : ((7/20:ℝ) - (7/20)^3/6 + (7/20)^5/40 + (7/20)^7/252) / 2.50662 ≤ 0.13684 := by
    norm_num
  unfold normCdf
  constructor <;> linarith

/-- Interval bounds on normCdf (3/20), the Phi(d2) of the worked example. -/
theorem normCdf15_bounds : (0.559617 : ℝ) ≤ normCdf (3/20) ∧ normCdf (3/20) ≤ 0.559618 := by
  obtain ⟨hl, hu⟩ := gaussInt_bounds (3/20) (by norm_num) (by norm_num)
  have hS1 := two_pi_sqrt_lb
  have hS2 := two_pi_sqrt_ub
  have hIpos : (0:ℝ) ≤ ∫ t in (0:ℝ)..(3/20), Real.exp (-(t^2/2)) := by
    refine le_trans ?_ hl
    norm_num
  have hub : (∫ t in (0:ℝ)..(3/20), Real.exp (-(t^2/2))) / Real.sqrt (2*Real.pi)
      ≤ ((3/20) - (3/20)^3/6 + (3/20)^5/40 + (3/20)^7/252) / 2.50662 :=
    div_le_div₀ (by norm_num) hu (by norm_num) hS1.le
  have hlb : ((3/20) - (3/20)^3/6 + (3/20)^5/40 - (3/20)^7/252) / 2.50664
      ≤ (∫ t in (0:ℝ)..(3/20), Real.exp (-(t^2/2))) / Real.sqrt (2*Real.pi) :=
    div_le_div₀ hIpos hl (lt_trans (by norm_num) hS1) hS2.le
  have e1 : ((3/20:ℝ) - (3/20)^3/6 + (3/20)^5/40 - (3/20)^7/252) / 2.50664 ≥ 0.059617 := by
    norm_num
  have e2 : ((3/20:ℝ) - (3/20)^3/6 + (3/20)^5/40 + (3/20)^7/252) / 2.50662 ≤ 0.059618 := by
    norm_num
  unfold normCdf
  constructor <;> linarith

/-- Interval bounds on exp (-(1/20)), the discount factor of the worked
example. -/
theorem expDiscount_bounds :
    (0.9512288 : ℝ) ≤ Real.exp (-(1/20)) ∧ Real.exp (-(1/20)) ≤ 0.9512295 := by
  have habs : |(-(1/20) : ℝ)| ≤ 1 := by
    rw [abs_neg, abs_of_nonneg (by norm_num : (0:ℝ) ≤ 1/20)]
    norm_num
  have h := Real.exp_bound habs (by norm_num : 0 < 4)
  have hsum : ∑ m ∈ Finset.range 4, ((-(1/20):ℝ)) ^ m / m.factorial
      = 45659/48000 := by
    simp [Finset.sum_range_succ, Nat.factorial]
    norm_num
  rw [hsum] at h
  have habs2 : |(-(1/20):ℝ)| = 1/20 := by
    rw [abs_neg, abs_of_nonneg (by norm_num : (0:ℝ) ≤ 1/20)]
  rw [habs2] at h
  have hfac : ((4:ℕ).factorial : ℝ) = 24 := by norm_num [Nat.factorial]
  rw [hfac] at h
  have h' := abs_le.mp h
  constructor <;> nlinarith [h'.1, h'.2]

end




/-- Evaluation of d1 at the worked example: S = K = 100, T = 1,
sigma = 0.2, r = 0.05 gives d1 = 0.35. -/
theorem bs_example_d1 :
    (Real.log ((100:ℝ) / 100) + ((0.05:ℝ) + 0.5 * 0.2^2) * 1) / (0.2 * Real.sqrt 1)
      = 7/20 := by
  rw [show ((100:ℝ)/100) = 1 by norm_num, Real.log_one, Real.sqrt_one]
  norm_num

/-- The price component of the pricer at the worked example. -/
theorem bs_example_price :
    (SACCR.calculate_black_scholes .call 100 100 1 0.2 0.05).1
      = 100 * normCdf (7/20) - 100 * Real.exp (-(1/20)) * normCdf (3/20) := by
  show 100 * normCdf ((Real.log ((100:ℝ)/100) + ((0.05:ℝ) + 0.5 * 0.2^2) * 1) / (0.2 * Real.sqrt 1))
      - 100 * Real.exp (-((0.05:ℝ) * 1))
        * normCdf ((Real.log ((100:ℝ)/100) + ((0.05:ℝ) + 0.5 * 0.2^2) * 1) / (0.2 * Real.sqrt 1)
            - 0.2 * Real.sqrt 1)
      = _
  rw [bs_example_d1, Real.sqrt_one]
  norm_num

/-- The delta component of the pricer at the worked example. -/
theorem bs_example_delta :
    (SACCR.calculate_black_scholes .call 100 100 1 0.2 0.05).2.1 = normCdf (7/20) := by
  show normCdf ((Real.log ((100:ℝ)/100) + ((0.05:ℝ) + 0.5 * 0.2^2) * 1) / (0.2 * Real.sqrt 1)) = _
  rw [bs_example_d1]

/-- C9: the Black-Scholes pricer on a call with S=100, K=100, T=1,
sigma=0.20, r=0.05 returns price = S*Phi(d1) - K*exp(-rT)*Phi(d2) with
d1 = 0.35 and d2 = 0.15, numerically within 0.01 of 10.45, and delta =
Phi(d1), numerically within 0.001 of 0.637. -/
theorem claim9_black_scholes_example :
    (SACCR.calculate_black_scholes .call 100 100 1 0.2 0.05).1
        = 100 * normCdf (7/20) - 100 * Real.exp (-(1/20)) * normCdf (3/20)
    ∧ (SACCR.calculate_black_scholes .call 100 100 1 0.2 0.05).2.1 = normCdf (7/20)
    ∧ |(SACCR.calculate_black_scholes .call 100 100 1 0.2 0.05).1 - 10.45| < 0.01
    ∧ |(SACCR.calculate_black_scholes .call 100 100 1 0.2 0.05).2.1 - 0.637| < 0.001 := by
  have h35 := normCdf35_bounds
  have h15 := normCdf15_bounds
  have he := expDiscount_bounds
  refine ⟨bs_example_price, bs_example_delta, ?_, ?_⟩
  · rw [bs_example_price]
    have hp1 : Real.exp (-(1/20)) * normCdf (3/20) ≤ 0.9512295 * 0.559618 :=
      mul_le_mul he.2 h15.2 (le_trans (by norm_num) h15.1) (by norm_num)
    have hp2 : (0.9512288:ℝ) * 0.559617 ≤ Real.exp (-(1/20)) * normCdf (3/20) :=
      mul_le_mul he.1 h15.1 (by norm_num) (le_trans (by norm_num) he.1)
    rw [abs_lt]
    constructor <;> nlinarith [h35.1, h35.2, hp1, hp2]
  · rw [bs_example_delta, abs_lt]
    constructor <;> linarith [h35.1, h35.2]

/-- C3 (amended): the SACCR engine resolves the supervisory delta exactly
as the spec says (override, else 1.0 for non-options, else the
Pricer-derived Black-Scholes delta sign-flipped for puts), while the PFE
engine resolves it to the override, else 1.0 for non-options, else the
fixed constant 0.5 (its Trade model carries no option pricing fields). -/
theorem claim3_delta_resolution :
    (∀ t : SACCR.Transaction,
        SACCR.calculate_supervisory_delta t = SACCR.supervisory_delta_spec t)
    ∧ (∀ t : PFE.Trade,
        PFE.calculate_supervisory_delta t =
          t.supervisory_delta.getD
            (if t.transaction_type = .option ∨ t.transaction_type = .swaption
             then 0.5 else 1.0)) := by
  constructor
  · intro t
    unfold SACCR.calculate_supervisory_delta SACCR.supervisory_delta_spec
    cases ht : t.supervisory_delta with
    | some d => rfl
    | none =>
      by_cases h : t.transaction_type = .option ∨ t.transaction_type = .swaption
      · rcases h with h | h <;>
          (rw [h]; cases t.underlying_price <;> cases t.strike_price <;> cases t.option_type <;>
            cases t.volatility <;> cases t.interest_rate <;> rfl)
      · have h1 : t.transaction_type ≠ .option := fun hc => h (Or.inl hc)
        have h2 : t.transaction_type ≠ .swaption := fun hc => h (Or.inr hc)
        rw [if_pos (And.intro h1 h2), if_neg h]
  · intro t
    unfold PFE.calculate_supervisory_delta
    cases ht : t.supervisory_delta with
    | some d => rfl
    | none =>
      by_cases h : t.transaction_type = .option ∨ t.transaction_type = .swaption
      · rw [if_neg (by tauto), Option.getD_none, if_pos h]
      · rw [if_pos (by tauto), Option.getD_none, if_neg h]

/-- C3 (counterexample): on an at-the-money call without an override the
SACCR engine derives the Black-Scholes delta Phi(0.35), but the PFE
engine uses the fixed 0.5, which differs from the Pricer-derived value
the claim requires. -/
theorem claim3_counterexample :
    SACCR.calculate_supervisory_delta saccrCallOption = some (normCdf (7/20))
    ∧ PFE.calculate_supervisory_delta pfeCallOption = 0.5
    ∧ PFE.calculate_supervisory_delta pfeCallOption ≠ normCdf (7/20) := by
  have h1 : SACCR.calculate_supervisory_delta saccrCallOption = some (normCdf (7/20)) := by
    show some (if OptionType.call = .put
        then -((SACCR.calculate_black_scholes .call 100 100 1 0.2 0.05).2.1)
        else (SACCR.calculate_black_scholes .call 100 100 1 0.2 0.05).2.1) = _
    rw [if_neg (by simp), bs_example_delta]
  have h2 : PFE.calculate_supervisory_delta pfeCallOption = 0.5 := rfl
  refine ⟨h1, h2, ?_⟩
  rw [h2]
  exact ne_of_lt (lt_of_lt_of_le (by norm_num) normCdf35_bounds.1)

/-- Evaluation: the single-swap PFE netting set has total add-on
0.005 * 1,000,000 * 1 = 5,000 (the worked example of spec section 8). -/
theorem pfe_swap_total_add_on : PFE.total_add_on pfeSwapNS = 5000 := by
  simp [PFE.total_add_on, totalOf, PFE.calculate_add_on, firstOccur, pfeSwapNS, pfeSwap,
    PFE.calculate_supervisory_delta, PFE.calculate_maturity_factor, PFE.SUPERVISORY_FACTORS]
  rw [show min (3:ℝ) 1.0 / 1.0 = 1 by norm_num, Real.sqrt_one]
  norm_num

/-- Evaluation: the single-swap PFE netting set has replacement cost 0. -/
theorem pfe_swap_replacement_cost : PFE.calculate_replacement_cost pfeSwapNS = 0 := by
  simp [PFE.calculate_replacement_cost, PFE.calculate_collateral_value, pfeSwapNS, pfeSwap]

/-- C2: in both engines the multiplier is 1.0 when the total add-on is 0
(and then the computed PFE is 0), and otherwise equals
0.05 + 0.95 * exp (-(min 1 (RC / (2 * total_add_on)))). -/
theorem claim2_multiplier :
    (∀ (ns : SACCR.NettingSet) (l : List (AssetClass × ℝ)),
       SACCR.calculate_add_on ns = some l →
       (totalOf l = 0 →
          multiplierOf (SACCR.calculate_replacement_cost ns) (totalOf l) = 1
          ∧ SACCR.calculate_potential_future_exposure ns = some 0)
       ∧ (totalOf l ≠ 0 →
          multiplierOf (SACCR.calculate_replacement_cost ns) (totalOf l)
            = 0.05 + 0.95 * Real.exp
                (-(min 1 (SACCR.calculate_replacement_cost ns / (2 * totalOf l))))))
    ∧ (∀ (ns : PFE.NettingSet) (th : PFE.TimeHorizon) (cl : PFE.ConfidenceLevel),
       (PFE.total_add_on ns = 0 →
          multiplierOf (PFE.calculate_replacement_cost ns) (PFE.total_add_on ns) = 1
          ∧ PFE.calculate_potential_future_exposure_sa_ccr ns th cl = 0)
       ∧ (PFE.total_add_on ns ≠ 0 →
          multiplierOf (PFE.calculate_replacement_cost ns) (PFE.total_add_on ns)
            = 0.05 + 0.95 * Real.exp
                (-(min 1 (PFE.calculate_replacement_cost ns / (2 * PFE.total_add_on ns)))))) := by
  constructor
  · intro ns l h
    constructor
    · intro h0
      refine ⟨by rw [multiplierOf, if_pos h0]; norm_num, ?_⟩
      rw [SACCR.calculate_potential_future_exposure, h]
      simp [h0]
    · intro h0
      rw [multiplierOf, if_neg h0]
      norm_num
  · intro ns th cl
    constructor
    · intro h0
      refine ⟨by rw [multiplierOf, if_pos h0]; norm_num, ?_⟩
      rw [PFE.calculate_potential_future_exposure_sa_ccr, h0]
      ring
    · intro h0
      rw [multiplierOf, if_neg h0]
      norm_num

/-- Witness for C2: the empty netting set exercises the zero-add-on case
in both engines; the single-swap netting set (total add-on 5,000)
exercises the exponential branch. -/
theorem claim2_multiplier_witness :
    (multiplierOf (SACCR.calculate_replacement_cost saccrEmptyNS)
        (totalOf ([] : List (AssetClass × ℝ))) = 1
      ∧ SACCR.calculate_potential_future_exposure saccrEmptyNS = some 0)
    ∧ (multiplierOf (PFE.calculate_replacement_cost pfeEmptyNS) (PFE.total_add_on pfeEmptyNS) = 1
      ∧ PFE.calculate_potential_future_exposure_sa_ccr pfeEmptyNS .one_year .cl_95 = 0)
    ∧ multiplierOf (PFE.calculate_replacement_cost pfeSwapNS) (PFE.total_add_on pfeSwapNS)
        = 0.05 + 0.95 * Real.exp
            (-(min 1 (PFE.calculate_replacement_cost pfeSwapNS
                / (2 * PFE.total_add_on pfeSwapNS)))) := by
  have hsaccr : SACCR.calculate_add_on saccrEmptyNS = some [] := rfl
  have hzero : totalOf ([] : List (AssetClass × ℝ)) = 0 := rfl
  have hpfz : PFE.total_add_on pfeEmptyNS = 0 := rfl
  have hpfnz : PFE.total_add_on pfeSwapNS ≠ 0 := by
    rw [pfe_swap_total_add_on]
    norm_num
  exact ⟨(claim2_multiplier.1 saccrEmptyNS [] hsaccr).1 hzero,
    (claim2_multiplier.2 pfeEmptyNS .one_year .cl_95).1 hpfz,
    (claim2_multiplier.2 pfeSwapNS .one_year .cl_95).2 hpfnz⟩

/-- C4 (counterexample): on the single-swap netting set at the one-week
horizon and 95 percent confidence, the Internal-Model PFE is not the
unscaled SA-CCR PFE times 0.8 - the sqrt-horizon and confidence scalings
are applied before the 0.8 adjustment. -/
theorem claim4_counterexample :
    PFE.calculate_potential_future_exposure_internal_model pfeSwapNS .one_week .cl_95
      ≠ multiplierOf (PFE.calculate_replacement_cost pfeSwapNS) (PFE.total_add_on pfeSwapNS)
          * PFE.total_add_on pfeSwapNS * 0.8 := by
  have hm : multiplierOf (PFE.calculate_replacement_cost pfeSwapNS)
      (PFE.total_add_on pfeSwapNS) = 1 := by
    rw [pfe_swap_replacement_cost, pfe_swap_total_add_on, multiplierOf, if_neg (by norm_num)]
    norm_num [Real.exp_zero]
  unfold PFE.calculate_potential_future_exposure_internal_model
    PFE.calculate_potential_future_exposure_sa_ccr
  rw [hm, pfe_swap_total_add_on,
    show PFE.TIME_HORIZON_YEARS .one_week = 1/52 from rfl,
    show PFE.CONFIDENCE_LEVELS .cl_95 = 1.645 from rfl]
  have hs : Real.sqrt (1/52) < 1 := by
    rw [Real.sqrt_lt' one_pos]
    norm_num
  have hs0 : (0:ℝ) ≤ Real.sqrt (1/52) := Real.sqrt_nonneg _
  intro hEq
  nlinarith [hs, hs0]

/-- C4 (amended): the sqrt-horizon and confidence-ratio scalings enter
the SA-CCR PFE itself, and the Internal-Model and Historical methods
return that already-scaled PFE times 0.8 and 1.1 respectively; the
z-score and horizon tables are the enumerated ones. -/
theorem claim4_scaling :
    (∀ (ns : PFE.NettingSet) (th : PFE.TimeHorizon) (cl : PFE.ConfidenceLevel),
      PFE.calculate_potential_future_exposure_sa_ccr ns th cl
        = multiplierOf (PFE.calculate_replacement_cost ns) (PFE.total_add_on ns)
            * PFE.total_add_on ns
            * Real.sqrt (PFE.TIME_HORIZON_YEARS th)
            * (PFE.CONFIDENCE_LEVELS cl / 1.96)
      ∧ PFE.calculate_potential_future_exposure_internal_model ns th cl
          = PFE.calculate_potential_future_exposure_sa_ccr ns th cl * 0.8
      ∧ PFE.calculate_potential_future_exposure_historical ns th cl
          = PFE.calculate_potential_future_exposure_sa_ccr ns th cl * 1.1)
    ∧ PFE.TIME_HORIZON_YEARS .one_week = 1/52
    ∧ PFE.TIME_HORIZON_YEARS .five_year = 5
    ∧ PFE.CONFIDENCE_LEVELS .cl_95 = 1.645
    ∧ PFE.CONFIDENCE_LEVELS .cl_97_5 = 1.96
    ∧ PFE.CONFIDENCE_LEVELS .cl_99 = 2.326 := by
  refine ⟨fun ns th cl => ⟨rfl, rfl, rfl⟩, rfl, ?_, rfl, rfl, rfl⟩
  norm_num [PFE.TIME_HORIZON_YEARS]

/-- C6: the Grid/Schedule margin of each asset class is the gross notional
of that class times the fixed "2-5 year" threshold, independent of every
trade's maturity (changing all maturities changes nothing); on one equity
trade of notional 1,000,000 and maturity 1 year the margin is 80,000 even
though the 1-year maturity falls in the "0-2" bucket, whose threshold
would give 60,000. -/
theorem claim6_grid_margin :
    (∀ (ns : IM.NettingSet) (f : IM.Trade → ℝ),
        IM.grid_margins { ns with trades := ns.trades.map fun t => { t with maturity := f t } }
          = IM.grid_margins ns)
    ∧ IM.grid_total_margin imEquityNS = 80000
    ∧ IM.get_maturity_bucket 1 = .b0to2
    ∧ (1000000:ℝ) * IM.GRID_THRESHOLDS .equity .b0to2 = 60000
    ∧ (60000:ℝ) ≠ 80000 := by
  refine ⟨?_, ?_, ?_, ?_, ?_⟩
  · intro ns f
    unfold IM.grid_margins
    have h1 : ((ns.trades.map fun t => { t with maturity := f t }).map (·.asset_class))
        = ns.trades.map (·.asset_class) := by
      rw [List.map_map]
      rfl
    rw [show ({ ns with trades := ns.trades.map fun t => { t with maturity := f t } }
        : IM.NettingSet).trades = ns.trades.map fun t => { t with maturity := f t } from rfl]
    rw [h1]
    apply List.map_congr_left
    intro c _
    have h2 : ((ns.trades.map fun t => { t with maturity := f t }).filter
          fun t => decide (t.asset_class = c))
        = (ns.trades.filter fun t => decide (t.asset_class = c)).map
            fun t => { t with maturity := f t } := by
      rw [List.filter_map]
      rfl
    rw [h2]
    unfold IM.gross_notional
    rw [List.map_map]
    rfl
  · show totalOf (IM.grid_margins imEquityNS) = 80000
    simp [IM.grid_margins, IM.gross_notional, totalOf, firstOccur, imEquityNS, imEquityTrade,
      IM.GRID_THRESHOLDS]
    norm_num
  · norm_num [IM.get_maturity_bucket]
  · norm_num [IM.GRID_THRESHOLDS]
  · norm_num

/-- lookup finds a value exactly when the key occurs. -/
theorem lookup_isSome_iff {κ β : Type} [DecidableEq κ] (a : κ) (l : List (κ × β)) :
    (List.lookup a l).isSome ↔ a ∈ l.map Prod.fst := by
  induction l with
  | nil => simp
  | cons q l ih =>
    rcases q with ⟨k, v⟩
    by_cases h : a = k
    · have hbeq : (a == k) = true := by simp [h]
      simp [List.lookup_cons, hbeq, h]
    · have hbeq : (a == k) = false := by simp [h]
      simp [List.lookup_cons, hbeq, h, ih]

/-- Updating a key that does not occur changes nothing. -/
theorem map_update_id {κ : Type} [DecidableEq κ] (l : List (κ × ℝ)) (a : κ) (v : ℝ)
    (h : a ∉ l.map Prod.fst) :
    (l.map fun q => if q.1 = a then (q.1, q.2 + v) else q) = l := by
  induction l with
  | nil => rfl
  | cons q l ih =>
    simp only [List.map_cons, List.mem_cons] at h
    push_neg at h
    rw [List.map_cons, if_neg (fun hq => h.1 hq.symm), ih h.2]

/-- Updating a key that occurs once adds the value to the total. -/
theorem totalOf_update {κ : Type} [DecidableEq κ] (l : List (κ × ℝ)) (a : κ) (v : ℝ)
    (hnd : (l.map Prod.fst).Nodup) (hmem : a ∈ l.map Prod.fst) :
    totalOf (l.map fun q => if q.1 = a then (q.1, q.2 + v) else q) = totalOf l + v := by
  induction l with
  | nil => simp at hmem
  | cons q l ih =>
    rw [List.map_cons, List.nodup_cons] at hnd
    rcases List.mem_cons.mp hmem with h | h
    · rw [List.map_cons, if_pos h.symm, map_update_id l a v (h ▸ hnd.1)]
      simp [totalOf]
      ring
    · have hne : q.1 ≠ a := fun hq => hnd.1 (hq ▸ h)
      rw [List.map_cons, if_neg hne]
      have := ih hnd.2 h
      simp only [totalOf, List.map_cons, List.sum_cons] at this ⊢
      linarith

/-- The keys of an updated association list are unchanged. -/
theorem map_update_fst {κ : Type} [DecidableEq κ] (l : List (κ × ℝ)) (a : κ) (v : ℝ) :
    ((l.map fun q => if q.1 = a then (q.1, q.2 + v) else q).map Prod.fst)
      = l.map Prod.fst := by
  rw [List.map_map]
  apply List.map_congr_left
  intro q _
  by_cases hq : q.1 = a <;> simp [hq]

/-- Accumulating preserves the total of the values. -/
theorem accumulate_totalOf {κ : Type} [DecidableEq κ] (l : List (κ × ℝ)) :
    totalOf (accumulate l) = totalOf l := by
  suffices h : ∀ (l acc : List (κ × ℝ)), (acc.map Prod.fst).Nodup →
      totalOf (List.foldl
        (fun acc p =>
          if (List.lookup p.1 acc).isSome then
            acc.map (fun q => if q.1 = p.1 then (q.1, q.2 + p.2) else q)
          else acc ++ [p]) acc l) = totalOf acc + totalOf l
      ∧ ((List.foldl
        (fun acc p =>
          if (List.lookup p.1 acc).isSome then
            acc.map (fun q => if q.1 = p.1 then (q.1, q.2 + p.2) else q)
          else acc ++ [p]) acc l).map Prod.fst).Nodup by
    have h2 := (h l []) (by simp)
    rw [accumulate, h2.1]
    simp [totalOf]
  intro l
  induction l with
  | nil =>
    intro acc h
    simp [totalOf, h]
  | cons p l ih =>
    intro acc hacc
    rw [List.foldl_cons]
    have hstep : totalOf (if (List.lookup p.1 acc).isSome then
          acc.map (fun q => if q.1 = p.1 then (q.1, q.2 + p.2) else q)
        else acc ++ [p]) = totalOf acc + p.2
        ∧ (((if (List.lookup p.1 acc).isSome then
          acc.map (fun q => if q.1 = p.1 then (q.1, q.2 + p.2) else q)
        else acc ++ [p])).map Prod.fst).Nodup := by
      by_cases hl : (List.lookup p.1 acc).isSome
      · rw [if_pos hl]
        have hmem := (lookup_isSome_iff p.1 acc).mp hl
        exact ⟨totalOf_update acc p.1 p.2 hacc hmem, by rw [map_update_fst]; exact hacc⟩
      · rw [if_neg hl]
        have hmem : p.1 ∉ acc.map Prod.fst := fun hm =>
          hl ((lookup_isSome_iff p.1 acc).mpr hm)
        constructor
        · simp [totalOf]
        · rw [List.map_append]
          simp [List.nodup_append, hacc, hmem]
    obtain ⟨h1, h2⟩ := ih _ hstep.2
    refine ⟨?_, h2⟩
    rw [h1, hstep.1]
    simp [totalOf]
    ring

/-- The sum of the value/total*100 percentages over a list whose values
sum to the (non-zero) total is 100. -/
theorem sum_pct {κ : Type} (l : List (κ × ℝ)) (T : ℝ) (hT : T ≠ 0)
    (hsum : totalOf l = T) :
    ((l.map fun p => p.2 / T * 100).sum) = 100 := by
  have hfun : (fun p : κ × ℝ => p.2 / T * 100) = fun p => p.2 * (100 / T) := by
    funext p
    ring
  rw [hfun, List.sum_map_mul_right]
  have h2 : (l.map fun p : κ × ℝ => p.2).sum = T := hsum
  rw [h2]
  field_simp

/-- Totals add over list append. -/
theorem totalOf_append {κ : Type} (l1 l2 : List (κ × ℝ)) :
    totalOf (l1 ++ l2) = totalOf l1 + totalOf l2 := by
  simp [totalOf]

/-- The total of a flattened list of association lists. -/
theorem totalOf_flatten {κ : Type} (ls : List (List (κ × ℝ))) :
    totalOf ls.flatten = (ls.map totalOf).sum := by
  induction ls with
  | nil => rfl
  | cons l ls ih => rw [List.flatten_cons, totalOf_append, ih, List.map_cons, List.sum_cons]

/-- A total of pointwise-nonnegative values is nonnegative. -/
theorem totalOf_nonneg {κ : Type} (l : List (κ × ℝ)) (h : ∀ p ∈ l, 0 ≤ p.2) :
    0 ≤ totalOf l := by
  apply List.sum_nonneg
  intro x hx
  obtain ⟨p, hp, rfl⟩ := List.mem_map.mp hx
  exact h p hp

/-- Every grid threshold is nonnegative. -/
theorem grid_thresholds_nonneg (c : AssetClass) (b : IM.MaturityBucket) :
    0 ≤ IM.GRID_THRESHOLDS c b := by
  cases c <;> cases b <;> norm_num [IM.GRID_THRESHOLDS]

/-- Every SIMM risk weight is nonnegative. -/
theorem simm_weights_nonneg (c : AssetClass) (comp : IM.SimmComponent) :
    0 ≤ IM.SIMM_RISK_WEIGHTS c comp := by
  cases c <;> cases comp <;> norm_num [IM.SIMM_RISK_WEIGHTS]

/-- Gross notional is nonnegative. -/
theorem gross_notional_nonneg (ts : List IM.Trade) : 0 ≤ IM.gross_notional ts := by
  apply List.sum_nonneg
  intro x hx
  obtain ⟨t, ht, rfl⟩ := List.mem_map.mp hx
  positivity

/-- All per-class margins of either initial-margin method are nonnegative. -/
theorem method_margins_nonneg (method : IM.CalculationMethod) (ns : IM.NettingSet) :
    ∀ p ∈ IM.method_margins method ns, 0 ≤ p.2 := by
  intro p hp
  cases method with
  | grid =>
    obtain ⟨c, _, rfl⟩ := List.mem_map.mp hp
    exact mul_nonneg (gross_notional_nonneg _) (grid_thresholds_nonneg _ _)
  | simm =>
    obtain ⟨c, _, rfl⟩ := List.mem_map.mp hp
    unfold IM.simm_class_margin
    have h1 := simm_weights_nonneg c .delta
    have h2 := simm_weights_nonneg c .vega
    have h3 := simm_weights_nonneg c .curvature
    positivity

/-- The accumulated total margin is nonnegative. -/
theorem im_total_margin_nonneg (method : IM.CalculationMethod) (nss : List IM.NettingSet) :
    0 ≤ IM.total_margin method nss := by
  apply List.sum_nonneg
  intro x hx
  obtain ⟨ns, _, rfl⟩ := List.mem_map.mp hx
  exact totalOf_nonneg _ (method_margins_nonneg method ns)

/-- The values of the accumulated all_margins dict sum to the accumulated
total margin. -/
theorem im_all_margins_total (method : IM.CalculationMethod) (nss : List IM.NettingSet) :
    totalOf (IM.all_margins method nss) = IM.total_margin method nss := by
  rw [IM.all_margins, accumulate_totalOf, totalOf_flatten, List.map_map]
  rfl

/-- C8 (amended): both breakdown percentages sum to 100 whenever their
total is positive and every entry is 0 whenever the total is not; for the
Initial Margin engine (whose margins are nonnegative) a non-zero total is
automatically positive, so the claim as stated also holds there. -/
theorem claim8_percentages :
    (∀ nss : List PFE.NettingSet,
       (0 < totalOf (PFE.all_add_ons nss) →
          ((PFE.asset_class_breakdown nss).map fun e => e.2.2).sum = 100)
       ∧ (totalOf (PFE.all_add_ons nss) ≤ 0 →
          ∀ e ∈ PFE.asset_class_breakdown nss, e.2.2 = 0))
    ∧ (∀ (method : IM.CalculationMethod) (nss : List IM.NettingSet),
       (IM.total_margin method nss ≠ 0 →
          ((IM.asset_class_breakdown method nss).map fun e => e.2.2).sum = 100)
       ∧ (IM.total_margin method nss = 0 →
          ∀ e ∈ IM.asset_class_breakdown method nss, e.2.2 = 0)) := by
  constructor
  · intro nss
    constructor
    · intro hpos
      show ((( PFE.all_add_ons nss).map fun p =>
          (p.1, p.2, if totalOf (PFE.all_add_ons nss) > 0
            then p.2 / totalOf (PFE.all_add_ons nss) * 100 else 0.0)).map
          fun e => e.2.2).sum = 100
      rw [List.map_map]
      have hfun : ((fun e : AssetClass × ℝ × ℝ => e.2.2) ∘ fun p : AssetClass × ℝ =>
          (p.1, p.2, if totalOf (PFE.all_add_ons nss) > 0
            then p.2 / totalOf (PFE.all_add_ons nss) * 100 else 0.0))
          = fun p : AssetClass × ℝ => p.2 / totalOf (PFE.all_add_ons nss) * 100 := by
        funext p
        simp [hpos]
      rw [hfun]
      exact sum_pct _ _ (ne_of_gt hpos) rfl
    · intro hle e he
      show e.2.2 = 0
      obtain ⟨p, _, rfl⟩ := List.mem_map.mp he
      simp [not_lt.mpr hle]
      norm_num
  · intro method nss
    have hkey := im_all_margins_total method nss
    constructor
    · intro hne
      have hpos : 0 < IM.total_margin method nss :=
        lt_of_le_of_ne (im_total_margin_nonneg method nss) (Ne.symm hne)
      show (((IM.all_margins method nss).map fun p =>
          (p.1, p.2, if IM.total_margin method nss > 0
            then p.2 / IM.total_margin method nss * 100 else 0.0)).map
          fun e => e.2.2).sum = 100
      rw [List.map_map]
      have hfun : ((fun e : AssetClass × ℝ × ℝ => e.2.2) ∘ fun p : AssetClass × ℝ =>
          (p.1, p.2, if IM.total_margin method nss > 0
            then p.2 / IM.total_margin method nss * 100 else 0.0))
          = fun p : AssetClass × ℝ => p.2 / IM.total_margin method nss * 100 := by
        funext p
        simp [hpos]
      rw [hfun]
      exact sum_pct _ _ (ne_of_gt hpos) hkey
    · intro hzero e he
      show e.2.2 = 0
      obtain ⟨p, _, rfl⟩ := List.mem_map.mp he
      simp [hzero]
      norm_num

/-- Evaluation: the add-on dict of the netting set with a -1 supervisory
delta is the single entry (interest_rate, -5). -/
theorem pfe_neg_add_on : PFE.calculate_add_on pfeNegNS = [(.interest_rate, -5)] := by
  simp [PFE.calculate_add_on, firstOccur, pfeNegNS, pfeNegTrade,
    PFE.calculate_supervisory_delta, PFE.SUPERVISORY_FACTORS, PFE.calculate_maturity_factor]
  rw [show min (1:ℝ) 1.0 / 1.0 = 1 by norm_num, Real.sqrt_one]
  norm_num

/-- Evaluation: the accumulated add-on dict of the one-netting-set input. -/
theorem pfe_neg_all : PFE.all_add_ons [pfeNegNS] = [(.interest_rate, -5)] := by
  rw [PFE.all_add_ons]
  simp only [List.map_cons, List.map_nil, List.flatten_cons, List.flatten_nil,
    List.append_nil, pfe_neg_add_on]
  rfl

/-- C8 (counterexample): with one trade carrying a -1 supervisory-delta
override, the PFE aggregate total add-on is -5 (non-zero), yet the
percentage entries sum to 0, not 100. -/
theorem claim8_counterexample :
    totalOf (PFE.all_add_ons [pfeNegNS]) ≠ 0
    ∧ ((PFE.asset_class_breakdown [pfeNegNS]).map fun e => e.2.2).sum ≠ 100 := by
  constructor
  · rw [pfe_neg_all]
    norm_num [totalOf]
  · show ((( PFE.all_add_ons [pfeNegNS]).map fun p =>
        (p.1, p.2, if totalOf (PFE.all_add_ons [pfeNegNS]) > 0
          then p.2 / totalOf (PFE.all_add_ons [pfeNegNS]) * 100 else 0.0)).map
        fun e => e.2.2).sum ≠ 100
    rw [pfe_neg_all]
    norm_num [totalOf]

/-- Evaluation: the Grid margin total on the one-equity-trade netting set. -/
theorem im_equity_grid_total : totalOf (IM.grid_margins imEquityNS) = 80000 := by
  simp [IM.grid_margins, IM.gross_notional, totalOf, firstOccur, imEquityNS, imEquityTrade,
    IM.GRID_THRESHOLDS]
  norm_num

/-- Witness for C8 (amended) at concrete inputs: positive-total and
zero-total cases for both engines. -/
theorem claim8_percentages_witness :
    ((PFE.asset_class_breakdown [pfeSwapNS]).map fun e => e.2.2).sum = 100
    ∧ (∀ e ∈ PFE.asset_class_breakdown ([] : List PFE.NettingSet), e.2.2 = 0)
    ∧ ((IM.asset_class_breakdown .grid [imEquityNS]).map fun e => e.2.2).sum = 100
    ∧ (∀ e ∈ IM.asset_class_breakdown .grid ([] : List IM.NettingSet), e.2.2 = 0) := by
  have h1 : 0 < totalOf (PFE.all_add_ons [pfeSwapNS]) := by
    rw [PFE.all_add_ons]
    simp only [List.map_cons, List.map_nil, List.flatten_cons, List.flatten_nil,
      List.append_nil]
    rw [accumulate_totalOf]
    rw [show totalOf (PFE.calculate_add_on pfeSwapNS) = 5000 from pfe_swap_total_add_on]
    norm_num
  have h2 : totalOf (PFE.all_add_ons ([] : List PFE.NettingSet)) ≤ 0 := le_of_eq rfl
  have h3 : IM.total_margin .grid [imEquityNS] ≠ 0 := by
    show ([imEquityNS].map fun ns => totalOf (IM.method_margins .grid ns)).sum ≠ 0
    simp only [List.map_cons, List.map_nil, List.sum_cons, List.sum_nil]
    show totalOf (IM.grid_margins imEquityNS) + 0 ≠ 0
    rw [im_equity_grid_total]
    norm_num
  have h4 : IM.total_margin .grid ([] : List IM.NettingSet) = 0 := rfl
  exact ⟨(claim8_percentages.1 [pfeSwapNS]).1 h1, (claim8_percentages.1 []).2 h2,
    (claim8_percentages.2 .grid [imEquityNS]).1 h3, (claim8_percentages.2 .grid []).2 h4⟩

/-- A fold preserves any invariant its step preserves. -/
theorem foldl_preserve {α β : Type} (P : β → Prop) (f : β → α → β)
    (hf : ∀ b a, P b → P (f b a)) :
    ∀ (l : List α) (b : β), P b → P (l.foldl f b) := by
  intro l
  induction l with
  | nil => intro b h; exact h
  | cons x l ih => intro b h; exact ih _ (hf b x h)

/-- The default correlation matrix is symmetric. -/
theorem baseCorr_symm (n : ℕ) : ∀ a b : Fin n, VaR.baseCorr n a b = VaR.baseCorr n b a := by
  intro a b
  unfold VaR.baseCorr
  by_cases h : a = b
  · rw [if_pos h, if_pos h.symm]
  · rw [if_neg h, if_neg fun hh => h hh.symm]

/-- A symmetric assignment preserves symmetry. -/
theorem symmUpdate_symm {n : ℕ} (M : Fin n → Fin n → ℝ) (i j : Fin n) (c : ℝ)
    (h : ∀ a b, M a b = M b a) :
    ∀ a b, VaR.symmUpdate M i j c a b = VaR.symmUpdate M i j c b a := by
  intro a b
  unfold VaR.symmUpdate
  by_cases hc : (a = i ∧ b = j) ∨ (a = j ∧ b = i)
  · rw [if_pos hc, if_pos (by tauto)]
  · rw [if_neg hc, if_neg (by tauto), h a b]

/-- Each loop iteration preserves symmetry. -/
theorem corrStep_symm (ps : List VaR.Position) (M : Fin ps.length → Fin ps.length → ℝ)
    (i j : Fin ps.length) (h : ∀ a b, M a b = M b a) :
    ∀ a b, VaR.corrStep ps M i j a b = VaR.corrStep ps M i j b a := by
  intro a b
  unfold VaR.corrStep
  cases hl : List.lookup (ps.get j).id (ps.get i).correlation with
  | none => exact h a b
  | some c => exact symmUpdate_symm M i j c h a b

/-- Each loop iteration preserves the unit diagonal, provided no
position's correlation dict is keyed by its own id. -/
theorem corrStep_diag (ps : List VaR.Position)
    (hself : ∀ i : Fin ps.length, List.lookup (ps.get i).id (ps.get i).correlation = none)
    (M : Fin ps.length → Fin ps.length → ℝ) (i j : Fin ps.length)
    (hM : ∀ a, M a a = 1.0) : ∀ a, VaR.corrStep ps M i j a a = 1.0 := by
  intro a
  unfold VaR.corrStep
  by_cases hij : i = j
  · subst hij
    rw [hself i]
    exact hM a
  · cases hl : List.lookup (ps.get j).id (ps.get i).correlation with
    | none => exact hM a
    | some c =>
      show VaR.symmUpdate M i j c a a = 1.0
      unfold VaR.symmUpdate
      rw [if_neg, hM a]
      rintro (⟨h1, h2⟩ | ⟨h1, h2⟩)
      · exact hij (h1 ▸ h2 ▸ rfl)
      · exact hij (h2 ▸ h1 ▸ rfl)

/-- C10 (amended): the correlation matrix built by the parametric and
Monte Carlo methods is always symmetric; every diagonal entry is 1.0
provided no position's correlation dict contains an entry keyed by its
own id (a self-keyed entry overwrites the diagonal with the supplied
value, as the counterexample shows). -/
theorem claim10_correlation_matrix :
    ∀ ps : List VaR.Position,
      (∀ a b, VaR.correlation_matrix ps a b = VaR.correlation_matrix ps b a)
      ∧ ((∀ i : Fin ps.length,
            List.lookup (ps.get i).id (ps.get i).correlation = none) →
          ∀ a, VaR.correlation_matrix ps a a = 1.0) := by
  intro ps
  constructor
  · exact foldl_preserve (fun M => ∀ a b, M a b = M b a) _
      (fun M i hM => foldl_preserve (fun M => ∀ a b, M a b = M b a) _
        (fun M' j hM' => corrStep_symm ps M' i j hM') _ M hM)
      (List.finRange ps.length) (VaR.baseCorr ps.length) (baseCorr_symm ps.length)
  · intro hself
    refine foldl_preserve (fun M => ∀ a, M a a = 1.0) _
      (fun M i hM => foldl_preserve (fun M => ∀ a, M a a = 1.0) _
        (fun M' j hM' => corrStep_diag ps hself M' i j hM') _ M hM)
      (List.finRange ps.length) (VaR.baseCorr ps.length) ?_
    intro a
    unfold VaR.baseCorr
    rw [if_pos rfl]

/-- Witness for C10 at a concrete two-position portfolio without
self-keyed correlation entries. -/
theorem claim10_witness :
    VaR.correlation_matrix [varPosB, varPosC] ⟨0, by norm_num⟩ ⟨1, by norm_num⟩
        = VaR.correlation_matrix [varPosB, varPosC] ⟨1, by norm_num⟩ ⟨0, by norm_num⟩
    ∧ VaR.correlation_matrix [varPosB, varPosC] ⟨0, by norm_num⟩ ⟨0, by norm_num⟩ = 1.0
    ∧ VaR.correlation_matrix [varPosB, varPosC] ⟨1, by norm_num⟩ ⟨1, by norm_num⟩ = 1.0 := by
  obtain ⟨hs, hd⟩ := claim10_correlation_matrix [varPosB, varPosC]
  have hself : ∀ i : Fin ([varPosB, varPosC] : List VaR.Position).length,
      List.lookup (([varPosB, varPosC] : List VaR.Position).get i).id
        (([varPosB, varPosC] : List VaR.Position).get i).correlation = none := by
    intro i
    fin_cases i <;> rfl
  exact ⟨hs _ _, hd hself _, hd hself _⟩

/-- C10 (counterexample): a position whose correlation dict is keyed by
its own id with value 0.3 makes the 1x1 correlation matrix have diagonal
entry 0.3, not 1.0. -/
theorem claim10_counterexample :
    VaR.correlation_matrix [varSelfCorrPos] ⟨0, by norm_num⟩ ⟨0, by norm_num⟩ = 0.3
    ∧ (0.3 : ℝ) ≠ 1.0 := by
  constructor
  · rfl
  · norm_num

/-- sqrt 0.04 = 0.2. -/
theorem sqrt_004 : Real.sqrt 0.04 = 0.2 := by
  rw [show (0.04:ℝ) = 0.2^2 by norm_num, Real.sqrt_sq (by norm_num : (0:ℝ) ≤ 0.2)]

/-- Evaluation: the single position has weight 1. -/
theorem varPos1_weight : VaR.weights [varPos1] ⟨0, by norm_num⟩ = 1 := by
  show VaR.positionValue varPos1 / VaR.calculate_portfolio_value [varPos1] = 1
  simp [VaR.positionValue, VaR.calculate_portfolio_value, varPos1]

/-- Evaluation: the 1x1 correlation matrix of the single position. -/
theorem varPos1_corr :
    VaR.correlation_matrix [varPos1] ⟨0, by norm_num⟩ ⟨0, by norm_num⟩ = 1.0 := rfl

/-- Evaluation: the 1x1 variance matrix entry is 0.04. -/
theorem varPos1_varmat :
    VaR.variance_matrix [varPos1] ⟨0, by norm_num⟩ ⟨0, by norm_num⟩ = 0.04 := by
  show Real.sqrt ((VaR.positionVolatility varPos1)^2)
      * Real.sqrt ((VaR.positionVolatility varPos1)^2)
      * VaR.correlation_matrix [varPos1] ⟨0, by norm_num⟩ ⟨0, by norm_num⟩ = 0.04
  rw [varPos1_corr, show VaR.positionVolatility varPos1 = 0.2 from rfl,
    Real.sqrt_sq (by norm_num : (0:ℝ) ≤ 0.2)]
  norm_num

/-- Evaluation: the single-position portfolio variance is 0.04. -/
theorem varPos1_pv : VaR.portfolio_variance [varPos1] = 0.04 := by
  show ∑ i : Fin 1, ∑ j : Fin 1,
      VaR.weights [varPos1] i * VaR.variance_matrix [varPos1] i j * VaR.weights [varPos1] j
    = 0.04
  rw [Fin.sum_univ_one, Fin.sum_univ_one]
  show VaR.weights [varPos1] ⟨0, by norm_num⟩
      * VaR.variance_matrix [varPos1] ⟨0, by norm_num⟩ ⟨0, by norm_num⟩
      * VaR.weights [varPos1] ⟨0, by norm_num⟩ = 0.04
  rw [varPos1_weight, varPos1_varmat]
  norm_num

/-- Evaluation: the diversified parametric VaR of the single position. -/
theorem varPos1_dv :
    VaR.diversified_var [varPos1] .cl_95 .one_day = 100 * 0.2 * 1.645 * 1.0 / Real.sqrt 252 := by
  unfold VaR.diversified_var
  rw [varPos1_pv, sqrt_004,
    show VaR.calculate_portfolio_value [varPos1] = 100 by
      simp [VaR.calculate_portfolio_value, VaR.positionValue, varPos1]]
  rfl

/-- The diversified VaR of the single position is strictly positive. -/
theorem varPos1_dv_pos : 0 < VaR.diversified_var [varPos1] .cl_95 .one_day := by
  rw [varPos1_dv]
  positivity

/-- C1 (failing input): on the one-position portfolio (value 100,
volatility 0.2, 95 percent, one day) the sum of the parametric per-position
VaR contributions is 0.2 times the diversified VaR - in general
sqrt(annualized portfolio variance) times it - and so does not equal the
diversified VaR. -/
theorem claim1_parametric_gap :
    VaR.parametric_contribution_sum [varPos1] .cl_95 .one_day
        = 0.2 * VaR.diversified_var [varPos1] .cl_95 .one_day
    ∧ VaR.parametric_contribution_sum [varPos1] .cl_95 .one_day
        ≠ VaR.diversified_var [varPos1] .cl_95 .one_day := by
  have hmcr : VaR.mcr [varPos1] ⟨0, by norm_num⟩ = 0.2 := by
    show (∑ j : Fin 1, VaR.weights [varPos1] j
        * VaR.variance_matrix [varPos1] ⟨0, by norm_num⟩ j)
        / Real.sqrt (VaR.portfolio_variance [varPos1]) = 0.2
    rw [Fin.sum_univ_one]
    show (VaR.weights [varPos1] ⟨0, by norm_num⟩
        * VaR.variance_matrix [varPos1] ⟨0, by norm_num⟩ ⟨0, by norm_num⟩)
        / Real.sqrt (VaR.portfolio_variance [varPos1]) = 0.2
    rw [varPos1_weight, varPos1_varmat, varPos1_pv, sqrt_004]
    norm_num
  have hsum : VaR.parametric_contribution_sum [varPos1] .cl_95 .one_day
      = 0.2 * VaR.diversified_var [varPos1] .cl_95 .one_day := by
    show ∑ i : Fin 1, VaR.component_var [varPos1] .cl_95 .one_day i = _
    rw [Fin.sum_univ_one]
    show VaR.weights [varPos1] ⟨0, by norm_num⟩ * VaR.mcr [varPos1] ⟨0, by norm_num⟩
        * VaR.diversified_var [varPos1] .cl_95 .one_day = _
    rw [varPos1_weight, hmcr]
    ring
  refine ⟨hsum, ?_⟩
  rw [hsum]
  have hpos := varPos1_dv_pos
  intro h
  nlinarith

/-- C5 (failing input): the empty portfolio is accepted by the schema and
gives diversified VaR 0 and diversification benefit 0, and the
diversification-benefit percentage computation divides by the zero
denominator var + benefit = 0 with no special case (modelled as none). -/
theorem claim5_unguarded :
    VaR.diversified_var [] .cl_95 .one_day = 0
    ∧ VaR.diversification_benefit [] .cl_95 .one_day = 0
    ∧ VaR.diversification_benefit_percentage 0 0 = none := by
  have h1 : VaR.diversified_var [] .cl_95 .one_day = 0 := by
    unfold VaR.diversified_var
    rw [show VaR.calculate_portfolio_value ([] : List VaR.Position) = 0 from rfl]
    ring
  refine ⟨h1, ?_, ?_⟩
  · unfold VaR.diversification_benefit
    rw [h1, show VaR.undiversified_var [] .cl_95 .one_day = 0 from rfl]
    ring
  · unfold VaR.diversification_benefit_percentage
    rw [if_pos (by norm_num)]

/-- The code's stressed position equals the claim's description of it. -/
theorem stressedPosition_eq_claim (sc : VaR.Scenario) :
    VaR.stressedPosition sc = VaR.claimStressedPosition sc := by
  funext p
  unfold VaR.stressedPosition VaR.claimStressedPosition
  have hv : (fun v => v * sc.volatility_multiplier
        * ((sc.asset_class_impacts p.asset_class).getD 1.0))
      = fun v => v * (sc.volatility_multiplier
        * ((sc.asset_class_impacts p.asset_class).getD 1.0)) := by
    funext v
    ring
  have hc : (fun kc : String × ℝ => (kc.1, min 1.0 (kc.2 + sc.correlation_increase)))
      = fun kc : String × ℝ => (kc.1, min (kc.2 + sc.correlation_increase) 1.0) := by
    funext kc
    rw [min_comm]
  rw [hv, hc]

/-- C7: on any non-empty portfolio the engine returns, for each of the
three enumerated scenarios, the Monte Carlo VaR (same draw stream, 5,000
simulations) of the portfolio in which each position's volatility is
multiplied by the scenario factor and its per-asset-class factor where
given and each supplied correlation is raised by the increment capped at
1.0; the reported increase is stressed VaR minus base VaR. -/
theorem claim7_stress_scenarios :
    ∀ (xi : ℕ → ℝ) (positions : List VaR.Position) (cl : VaR.ConfidenceLevel)
      (th : VaR.TimeHorizon) (base_var : ℝ),
      positions ≠ [] →
      VaR.calculate_stress_scenarios xi positions cl th base_var
        = VaR.STRESS_SCENARIOS.map (fun sc =>
            { name := sc.name
              description := sc.description
              var := VaR.calculate_monte_carlo_var xi
                  (positions.map (VaR.claimStressedPosition sc)) cl th 5000
              var_increase := VaR.calculate_monte_carlo_var xi
                  (positions.map (VaR.claimStressedPosition sc)) cl th 5000 - base_var
              var_increase_percentage := (VaR.calculate_monte_carlo_var xi
                  (positions.map (VaR.claimStressedPosition sc)) cl th 5000 - base_var)
                / base_var * 100 })
      ∧ VaR.STRESS_SCENARIOS.map (fun sc => sc.name)
          = ["Market Crash", "Interest Rate Spike", "Liquidity Crisis"] := by
  intro xi ps cl th b hne
  constructor
  · unfold VaR.calculate_stress_scenarios
    rw [if_pos (by cases ps with | nil => exact absurd rfl hne | cons q l => simp)]
    apply List.map_congr_left
    intro sc _
    rw [stressedPosition_eq_claim sc]
  · rfl

/-- Witness for C7 at a concrete one-position portfolio, constant draw
stream and base VaR 1. -/
theorem claim7_stress_witness :
    VaR.calculate_stress_scenarios (fun _ => 0) [varPos1] .cl_95 .one_day 1
        = VaR.STRESS_SCENARIOS.map (fun sc =>
            { name := sc.name
              description := sc.description
              var := VaR.calculate_monte_carlo_var (fun _ => 0)
                  ([varPos1].map (VaR.claimStressedPosition sc)) .cl_95 .one_day 5000
              var_increase := VaR.calculate_monte_carlo_var (fun _ => 0)
                  ([varPos1].map (VaR.claimStressedPosition sc)) .cl_95 .one_day 5000 - 1
              var_increase_percentage := (VaR.calculate_monte_carlo_var (fun _ => 0)
                  ([varPos1].map (VaR.claimStressedPosition sc)) .cl_95 .one_day 5000 - 1)
                / 1 * 100 })
    ∧ VaR.STRESS_SCENARIOS.map (fun sc => sc.name)
        = ["Market Crash", "Interest Rate Spike", "Liquidity Crisis"] :=
  claim7_stress_scenarios (fun _ => 0) [varPos1] .cl_95 .one_day 1 (by simp)
